import Mathlib

/-!
Verification of the bounded-parallel task mapper and the resource-pool
orchestrator of the lead-sniper system.

The embedding covers `ManusCore._execute_task` / `ManusCore.map_parallel`
(src/core/manus_core.py) and `HeadlessInstance.initialize`,
`HeadlessOrchestrator.start` / `scrape` / `scrape_parallel`
(src/scrapers/headless_orchestrator.py).  The operation applied to each
work item is modelled as a function into `Except String`, where `.error`
stands for a raised exception; real-time fields (execution time,
timestamps) and the logging calls are instrumentation and are not part of
the functional model.  The concurrency structure (the asyncio semaphore and
the scheduler's interleaving freedom) is modelled as an explicit transition
system on states.
-/

namespace LeadSniper

/-- Model of manus_core's `TaskResult`: id, success flag, value or
stringified exception.  The wall-clock fields `execution_time_ms` and
`timestamp` are omitted. -/
structure TaskResult (β : Type) where
  task_id : String
  success : Bool
  data : Option β := none
  error : Option String := none
  deriving DecidableEq, Repr

/-- The task counters of `ManusCore._metrics` (zero-initialized in
`__init__`). -/
structure Metrics where
  tasks_processed : Nat := 0
  tasks_succeeded : Nat := 0
  tasks_failed : Nat := 0
  deriving DecidableEq, Repr

/-- Model of `ManusCore._execute_task`: run the task function on its argument; on
normal return increment `tasks_processed` and `tasks_succeeded` and build a
successful `TaskResult` carrying the value; on an exception increment
`tasks_processed` and `tasks_failed` and build a failed `TaskResult`
carrying the stringified exception.  Nothing propagates out. -/
def execute_task {α β : Type} (op : α → Except String β) (task_id : String)
    (x : α) (m : Metrics) : Metrics × TaskResult β :=
  match op x with
  | .ok v =>
      ({ m with tasks_processed := m.tasks_processed + 1,
                tasks_succeeded := m.tasks_succeeded + 1 },
       { task_id := task_id, success := true, data := some v })
  | .error e =>
      ({ m with tasks_processed := m.tasks_processed + 1,
                tasks_failed := m.tasks_failed + 1 },
       { task_id := task_id, success := false, error := some e })

/-- The `TaskResult` part of `_execute_task`, which does not depend on the
metrics threaded through. -/
def taskResultOf {α β : Type} (op : α → Except String β) (task_id : String)
    (x : α) : TaskResult β :=
  (execute_task op task_id x {}).2

/-- The generated identifier of the work item at position `i` of a
`map_parallel` batch (`bounded_task` builds the task dict with id
`"map-" + index`). -/
def mapTaskId (i : Nat) : String := "map-" ++ toString i

/-- Result of one `bounded_task`: `_execute_task` on the task built from the
input at position `i`. -/
def taskOutput {α β : Type} (op : α → Except String β) (i : Nat) (x : α) :
    TaskResult β :=
  taskResultOf op (mapTaskId i) x

/-- The per-index results of the `map_parallel` batch starting at position
`i` (mirrors `enumerate(inputs)`). -/
def mapParallelFrom {α β : Type} (op : α → Except String β) (i : Nat) :
    List α → List (TaskResult β)
  | [] => []
  | x :: xs => taskOutput op i x :: mapParallelFrom op (i + 1) xs

/-- The list `asyncio.gather` returns for `map_parallel`, in submission
order. -/
def mapParallelCore {α β : Type} (op : α → Except String β)
    (inputs : List α) : List (TaskResult β) :=
  mapParallelFrom op 0 inputs

/-- Outcome of awaiting an async entry point: a raised exception, an await
that can never complete (the coroutine hangs forever), or a normal return
value. -/
inductive AsyncOutcome (ρ : Type) where
  | raised (e : String)
  | diverge
  | ok (r : ρ)
  deriving DecidableEq, Repr

/-- Effective concurrency limit of `map_parallel`: the Python expression
`max_concurrent or self.config.max_parallel_instances` replaces both
`None` and the falsy `0` by the config value. -/
def effConcurrent (max_concurrent : Option Int)
    (max_parallel_instances : Int) : Int :=
  match max_concurrent with
  | none => max_parallel_instances
  | some v => if v = 0 then max_parallel_instances else v

/-- Model of `ManusCore.map_parallel`.  `asyncio.Semaphore` raises
`ValueError` on a negative argument; a semaphore with zero permits never
lets any `bounded_task` enter its `async with`, so on a non-empty input
`gather` never completes; otherwise `gather` returns the per-index
`_execute_task` results in submission order (`_execute_task` catches every
exception, so the `return_exceptions` conversion path is never taken). -/
def map_parallel {α β : Type} (op : α → Except String β) (inputs : List α)
    (max_concurrent : Option Int) (max_parallel_instances : Int) :
    AsyncOutcome (List (TaskResult β)) :=
  if effConcurrent max_concurrent max_parallel_instances < 0 then
    .raised "Semaphore initial value must be >= 0"
  else if effConcurrent max_concurrent max_parallel_instances = 0 ∧
      inputs.isEmpty = false then .diverge
  else .ok (mapParallelCore op inputs)

/-- One completion event inside `gather`: the task with submission index
`j` finishes and its result is stored in slot `j` of the result array. -/
def fillSlot {α β : Type} (op : α → Except String β) (inputs : List α)
    (slots : List (Option (TaskResult β))) (j : Nat) :
    List (Option (TaskResult β)) :=
  match inputs[j]? with
  | some x => slots.set j (some (taskOutput op j x))
  | none => slots

/-- Running the gathered tasks to completion in an arbitrary completion
order: each completing task fills its own slot. -/
def fillSlots {α β : Type} (op : α → Except String β) (inputs : List α)
    (slots : List (Option (TaskResult β))) :
    List Nat → List (Option (TaskResult β))
  | [] => slots
  | j :: order => fillSlots op inputs (fillSlot op inputs slots j) order

/-- State of the semaphore-bounded fan-out (`map_parallel` and
`scrape_parallel` share this shape): which task indices have not yet
entered the `async with semaphore` block, are in flight, or are finished,
plus the number of free semaphore permits. -/
structure SemState where
  pending : List Nat
  running : List Nat
  finished : List Nat
  sem : Nat
  deriving DecidableEq, Repr

/-- Initial state: all `n` tasks pending, nothing in flight, every permit
free. -/
def initSem (cap : Nat) (n : Nat) : SemState :=
  { pending := List.range n, running := [], finished := [], sem := cap }

/-- Successor states of the semaphore system: a pending task may enter the
`async with semaphore` block only when a permit is free, taking one; a
running task may finish, returning its permit.  The scheduler is free to
pick any enabled task. -/
def semSteps (s : SemState) : List SemState :=
  (if s.sem = 0 then [] else
    s.pending.map (fun i =>
      { pending := s.pending.erase i, running := i :: s.running,
        finished := s.finished, sem := s.sem - 1 })) ++
  s.running.map (fun i =>
    { pending := s.pending, running := s.running.erase i,
      finished := i :: s.finished, sem := s.sem + 1 })

/-- Reachability in the semaphore system. -/
inductive SemReach (init : SemState) : SemState → Prop where
  | refl : SemReach init init
  | step {s t : SemState} : SemReach init s → t ∈ semSteps s → SemReach init t

/-- The concurrency structure of `HeadlessOrchestrator.scrape_parallel`: a
semaphore sized by `len(self.instances)` gates the `scrape` calls over the
target list. -/
def scrapeParallelInit (numInstances : Nat) (numTargets : Nat) : SemState :=
  initSem numInstances numTargets

/-- State of the orchestrator's instance pool (`self._instance_pool` plus
the instrumented set of instance ids currently borrowed by a `scrape`). -/
structure PoolState where
  available : List String
  borrowed : List String
  deriving DecidableEq, Repr

/-- Pool right after startup: every initialized instance id queued as
available, nothing borrowed. -/
def initPool (ids : List String) : PoolState :=
  { available := ids, borrowed := [] }

/-- One pool operation of `scrape`: acquire (`self._instance_pool.get()`,
taking the front of the queue) or release (`self._instance_pool.put(...)`
in the `finally` block, appending the returned id). -/
inductive PoolStep : PoolState → PoolState → Prop where
  | acquire (x : String) (rest borrowed : List String) :
      PoolStep ⟨x :: rest, borrowed⟩ ⟨rest, x :: borrowed⟩
  | release (x : String) (available borrowed : List String)
      (h : x ∈ borrowed) :
      PoolStep ⟨available, borrowed⟩ ⟨available ++ [x], borrowed.erase x⟩

/-- Reachability of pool states under acquire/release sequences. -/
inductive PoolReach (init : PoolState) : PoolState → Prop where
  | refl : PoolReach init init
  | step {s t : PoolState} : PoolReach init s → PoolStep s t → PoolReach init t

/-- Model of headless_orchestrator's `ScrapeResult`: target id (md5 prefix of the
url, modelled through the hash parameter), url, success flag, extracted
data or stringified exception, item count.  The wall-clock fields are
omitted. -/
structure ScrapeResult where
  target_id : String
  url : String
  success : Bool
  data : List (String × Option String) := []
  error : Option String := none
  items_extracted : Nat := 0
  deriving DecidableEq, Repr

/-- The scrape counters of `HeadlessOrchestrator._metrics`
(zero-initialized in `__init__`). -/
structure ScrapeMetrics where
  total_scrapes : Nat := 0
  successful_scrapes : Nat := 0
  failed_scrapes : Nat := 0
  items_extracted : Nat := 0
  deriving DecidableEq, Repr

/-- Model of `HeadlessOrchestrator.scrape`: await an instance id from the pool (on
an empty queue the coroutine blocks forever, modelled as `none`); run the
try block (navigate / form fill / extract, all external collaborators,
modelled as `op instance_id url` returning either the extracted data or the
raised exception); on success bump `total_scrapes`, `successful_scrapes`
and `items_extracted`, on exception bump `total_scrapes` and
`failed_scrapes`; in both cases the `finally` block puts the instance id
back at the end of the queue. -/
def scrape (hash : String → String)
    (op : String → String → Except String (List (String × Option String)))
    (st : PoolState) (m : ScrapeMetrics) (url : String) :
    Option (PoolState × ScrapeMetrics × ScrapeResult) :=
  match st.available with
  | [] => none
  | instance_id :: rest =>
    let borrowed := instance_id :: st.borrowed
    match op instance_id url with
    | .ok data =>
        some (⟨rest ++ [instance_id], borrowed.erase instance_id⟩,
          { m with total_scrapes := m.total_scrapes + 1,
                   successful_scrapes := m.successful_scrapes + 1,
                   items_extracted := m.items_extracted + data.length },
          { target_id := hash url, url := url, success := true,
            data := data, items_extracted := data.length })
    | .error e =>
        some (⟨rest ++ [instance_id], borrowed.erase instance_id⟩,
          { m with total_scrapes := m.total_scrapes + 1,
                   failed_scrapes := m.failed_scrapes + 1 },
          { target_id := hash url, url := url, success := false,
            error := some e })

/-- A sequence of `scrape` calls one after another, threading pool state
and metrics; `none` means some call blocked forever on an empty pool. -/
def runScrapes (hash : String → String)
    (op : String → String → Except String (List (String × Option String)))
    (st : PoolState) (m : ScrapeMetrics) :
    List String → Option (PoolState × ScrapeMetrics × List ScrapeResult)
  | [] => some (st, m, [])
  | url :: urls =>
    (scrape hash op st m url).bind fun p =>
      (runScrapes hash op p.1 p.2.1 urls).map fun q =>
        (q.1, q.2.1, p.2.2 :: q.2.2)

/-- A sequence of `_execute_task` calls, threading the metrics. -/
def runExecuteTasks {α β : Type} (op : α → Except String β) (m : Metrics) :
    List (String × α) → Metrics × List (TaskResult β)
  | [] => (m, [])
  | (tid, x) :: rest =>
    let p := execute_task op tid x m
    let q := runExecuteTasks op p.1 rest
    (q.1, p.2 :: q.2)

/-- Outcome of one `HeadlessInstance.initialize` attempt, an environment
choice: the playwright setup succeeds; playwright is missing (the
`ImportError` is caught, the instance falls back to mock mode and is still
marked active); or the setup raises some other exception, which is not
caught and propagates. -/
inductive InitOutcome where
  | success
  | importError
  | failure (msg : String)
  deriving DecidableEq, Repr

/-- Whether an initialization outcome is an uncaught exception. -/
def isFatal : InitOutcome → Bool
  | .failure _ => true
  | _ => false

/-- Model of `HeadlessInstance.initialize`: only `ImportError` is caught
(mock mode); any other exception propagates to the caller. -/
def instance_initialize : InitOutcome → Except String Unit
  | .success => .ok ()
  | .importError => .ok ()
  | .failure msg => .error msg

/-- The instance id `f"scraper-{i:04d}"`. -/
def instanceId (i : Nat) : String :=
  let s := toString i
  "scraper-" ++ String.mk (List.replicate (4 - s.length) '0') ++ s

/-- The instance ids `scraper-i`, `scraper-(i+1)`, ... for `n` successive
instances. -/
def pooledIds (i : Nat) : Nat → List String
  | 0 => []
  | n + 1 => instanceId i :: pooledIds (i + 1) n

/-- Model of `HeadlessOrchestrator.start` from instance index `i` on: each
`_init_instance` awaits `initialize` and, when it returns, puts the
instance id into the pool; `asyncio.gather` is called without
`return_exceptions`, so the first uncaught initialization exception
propagates out of `start`. -/
def startFrom (i : Nat) : List InitOutcome → Except String (List String)
  | [] => .ok []
  | o :: rest =>
    match instance_initialize o with
    | .error e => .error e
    | .ok _ =>
      match startFrom (i + 1) rest with
      | .error e => .error e
      | .ok ids => .ok (instanceId i :: ids)

/-- Model of `HeadlessOrchestrator.start`, given the per-instance initialization
outcomes; returns the pool contents on success (the Python method itself
returns `None`, not a count). -/
def orchestrator_start (outcomes : List InitOutcome) :
    Except String (List String) :=
  startFrom 0 outcomes

/-! Helper lemmas about the task mapper. -/

/-- The task id generated for position `j` is used on the success path and
on the failure path alike. -/
theorem taskOutput_task_id {α β : Type} (op : α → Except String β) (j : Nat)
    (x : α) : (taskOutput op j x).task_id = mapTaskId j := by
  unfold taskOutput taskResultOf execute_task
  cases op x <;> rfl

/-- When the operation raises, the task's result is the failed TaskResult
carrying the stringified exception. -/
theorem taskOutput_error {α β : Type} (op : α → Except String β) (j : Nat)
    (x : α) (e : String) (h : op x = Except.error e) :
    taskOutput op j x =
      { task_id := mapTaskId j, success := false, data := none,
        error := some e } := by
  unfold taskOutput taskResultOf execute_task
  rw [h]

/-- The mapper produces one result per input. -/
theorem mapParallelFrom_length {α β : Type} (op : α → Except String β)
    (l : List α) : ∀ i : Nat, (mapParallelFrom op i l).length = l.length := by
  induction l with
  | nil => intro i; rfl
  | cons x xs ih => intro i; simp [mapParallelFrom, ih]

/-- The result at offset `j` is the task output of the input at offset
`j`. -/
theorem mapParallelFrom_getElem? {α β : Type} (op : α → Except String β)
    (l : List α) : ∀ i j : Nat,
      (mapParallelFrom op i l)[j]? =
        (l[j]?).map (fun x => taskOutput op (i + j) x) := by
  induction l with
  | nil => intro i j; simp [mapParallelFrom]
  | cons x xs ih =>
    intro i j
    cases j with
    | zero => simp [mapParallelFrom]
    | succ j =>
      have h : i + 1 + j = i + (j + 1) := by omega
      simp [mapParallelFrom, ih (i + 1) j, h]

/-- Length of the gathered result list. -/
theorem mapParallelCore_length {α β : Type} (op : α → Except String β)
    (inputs : List α) : (mapParallelCore op inputs).length = inputs.length :=
  mapParallelFrom_length op inputs 0

/-- Index correspondence of the gathered result list. -/
theorem mapParallelCore_getElem? {α β : Type} (op : α → Except String β)
    (inputs : List α) (j : Nat) :
    (mapParallelCore op inputs)[j]? =
      (inputs[j]?).map (fun x => taskOutput op j x) := by
  have h := mapParallelFrom_getElem? op inputs 0 j
  simpa using h

/-- When every operation raises, every result is failed. -/
theorem mapParallelFrom_all_fail {α β : Type} (op : α → Except String β)
    (l : List α) (hfail : ∀ x ∈ l, ∃ e, op x = Except.error e) :
    ∀ i : Nat, ∀ r ∈ mapParallelFrom op i l, r.success = false := by
  induction l with
  | nil => intro i r hr; simp [mapParallelFrom] at hr
  | cons x xs ih =>
    intro i r hr
    rw [mapParallelFrom] at hr
    rcases List.mem_cons.1 hr with h | h
    · obtain ⟨e, he⟩ := hfail x (List.mem_cons_self x xs)
      rw [h, taskOutput_error op i x e he]
    · exact ih (fun y hy => hfail y (List.mem_cons_of_mem x hy)) (i + 1) r h

/-- With an effective concurrency limit of at least one, map_parallel
returns the gathered per-index results. -/
theorem map_parallel_ok {α β : Type} (op : α → Except String β)
    (inputs : List α) (mc : Option Int) (d : Int)
    (h : 1 ≤ effConcurrent mc d) :
    map_parallel op inputs mc d =
      AsyncOutcome.ok (mapParallelCore op inputs) := by
  unfold map_parallel
  rw [if_neg (by omega), if_neg (by rintro ⟨h0, _⟩; omega)]

/-- A positive explicit max_concurrent is kept as passed. -/
theorem effConcurrent_of_ne_zero {mc : Int} (d : Int) (h : mc ≠ 0) :
    effConcurrent (some mc) d = mc := by
  show (if mc = 0 then d else mc) = mc
  rw [if_neg h]

/-- Completing a task never changes the size of the result array. -/
theorem fillSlot_length {α β : Type} (op : α → Except String β)
    (inputs : List α) (slots : List (Option (TaskResult β))) (j : Nat) :
    (fillSlot op inputs slots j).length = slots.length := by
  unfold fillSlot
  cases inputs[j]? <;> simp

/-- Running completions never changes the size of the result array. -/
theorem fillSlots_length {α β : Type} (op : α → Except String β)
    (inputs : List α) (order : List Nat) :
    ∀ slots : List (Option (TaskResult β)),
      (fillSlots op inputs slots order).length = slots.length := by
  induction order with
  | nil => intro slots; rfl
  | cons j order ih =>
    intro slots
    show (fillSlots op inputs (fillSlot op inputs slots j) order).length =
      slots.length
    rw [ih, fillSlot_length]

/-- A slot already holding its own task's result keeps it through any
further completions: a duplicate completion rewrites the same value and a
completion of another task writes elsewhere. -/
theorem fillSlots_stable {α β : Type} (op : α → Except String β)
    (inputs : List α) (order : List Nat) :
    ∀ (slots : List (Option (TaskResult β))) (j : Nat) (x : α),
      inputs[j]? = some x →
      slots[j]? = some (some (taskOutput op j x)) →
      (fillSlots op inputs slots order)[j]? =
        some (some (taskOutput op j x)) := by
  induction order with
  | nil => intro slots j x _ hs; exact hs
  | cons k order ih =>
    intro slots j x hx hs
    show (fillSlots op inputs (fillSlot op inputs slots k) order)[j]? = _
    apply ih _ j x hx
    by_cases hkj : k = j
    · subst hkj
      unfold fillSlot
      rw [hx]
      have hlt : k < slots.length := by
        by_contra hge
        rw [List.getElem?_eq_none (by omega)] at hs
        cases hs
      exact List.getElem?_set_eq_of_lt _ hlt
    · unfold fillSlot
      cases inputs[k]? with
      | none => exact hs
      | some y => rw [List.getElem?_set_ne hkj]; exact hs

/-- Once the task with index `j` completes somewhere in the completion
order, slot `j` holds its result. -/
theorem fillSlots_hit {α β : Type} (op : α → Except String β)
    (inputs : List α) (order : List Nat) :
    ∀ (slots : List (Option (TaskResult β))) (j : Nat) (x : α),
      slots.length = inputs.length →
      inputs[j]? = some x →
      j ∈ order →
      (fillSlots op inputs slots order)[j]? =
        some (some (taskOutput op j x)) := by
  induction order with
  | nil => intro slots j x _ _ hmem; simp at hmem
  | cons k order ih =>
    intro slots j x hlen hx hmem
    show (fillSlots op inputs (fillSlot op inputs slots k) order)[j]? = _
    by_cases hkj : k = j
    · subst hkj
      apply fillSlots_stable op inputs order _ k x hx
      unfold fillSlot
      rw [hx]
      have hlt : k < slots.length := by
        have hk : k < inputs.length := by
          by_contra hge
          rw [List.getElem?_eq_none (by omega)] at hx
          cases hx
        omega
      exact List.getElem?_set_eq_of_lt _ hlt
    · have hmem2 : j ∈ order := by
        rcases List.mem_cons.1 hmem with h | h
        · exact absurd h.symm hkj
        · exact h
      apply ih _ j x _ hx hmem2
      rw [fillSlot_length]
      exact hlen

/-- Any completion order that completes every task fills the result array
to exactly the submission-ordered result list. -/
theorem fillSlots_complete {α β : Type} (op : α → Except String β)
    (inputs : List α) (order : List Nat)
    (hperm : order.Perm (List.range inputs.length)) :
    fillSlots op inputs (List.replicate inputs.length none) order =
      (mapParallelCore op inputs).map some := by
  apply List.ext_getElem?
  intro j
  by_cases hj : j < inputs.length
  · have hx : inputs[j]? = some inputs[j] := List.getElem?_eq_getElem hj
    rw [fillSlots_hit op inputs order _ j (inputs[j]) (by simp) hx
      (hperm.mem_iff.2 (List.mem_range.2 hj))]
    rw [List.getElem?_map, mapParallelCore_getElem?, hx]
    rfl
  · have h1 : (fillSlots op inputs (List.replicate inputs.length none)
        order).length ≤ j := by
      rw [fillSlots_length, List.length_replicate]; omega
    have h2 : ((mapParallelCore op inputs).map some).length ≤ j := by
      rw [List.length_map, mapParallelCore_length]; omega
    rw [List.getElem?_eq_none h1, List.getElem?_eq_none h2]

/-! The claims about the bounded task mapper. -/

/-- C1: for every non-empty input list of length N and every
max_concurrent in [1, N], map_parallel returns a list of exactly N
TaskResults whose index correspondence matches the inputs — the result at
index j is the result of applying the operation to inputs[j] — and running
the concurrent executions to completion in any completion order reassembles
exactly that submission-ordered list. -/
theorem map_parallel_ordered {α β : Type} (op : α → Except String β)
    (inputs : List α) (mc : Int) (hne : inputs ≠ [])
    (h1 : 1 ≤ mc) (h2 : mc ≤ (inputs.length : Int)) :
    ∃ rs, map_parallel op inputs (some mc) 1000 = AsyncOutcome.ok rs ∧
      rs.length = inputs.length ∧
      (∀ j : Nat, j < inputs.length →
        rs[j]? = (inputs[j]?).map (fun x => taskOutput op j x)) ∧
      ∀ order : List Nat, order.Perm (List.range inputs.length) →
        fillSlots op inputs (List.replicate inputs.length none) order =
          rs.map some := by
  refine ⟨mapParallelCore op inputs, ?_, mapParallelCore_length op inputs,
    ?_, ?_⟩
  · exact map_parallel_ok op inputs (some mc) 1000
      (by rw [effConcurrent_of_ne_zero 1000 (by omega)]; exact h1)
  · intro j _
    exact mapParallelCore_getElem? op inputs j
  · intro order hperm
    exact fillSlots_complete op inputs order hperm

/-- C1 witness: doubling over [3, 4, 5] with max_concurrent 2. -/
theorem map_parallel_ordered_witness :
    ∃ rs, map_parallel (fun n : Nat => Except.ok (n * 2)) [3, 4, 5]
        (some 2) 1000 = AsyncOutcome.ok rs ∧
      rs.length = ([3, 4, 5] : List Nat).length ∧
      (∀ j : Nat, j < ([3, 4, 5] : List Nat).length →
        rs[j]? = (([3, 4, 5] : List Nat)[j]?).map
          (fun x => taskOutput (fun n : Nat => Except.ok (n * 2)) j x)) ∧
      ∀ order : List Nat,
        order.Perm (List.range ([3, 4, 5] : List Nat).length) →
        fillSlots (fun n : Nat => Except.ok (n * 2)) [3, 4, 5]
            (List.replicate ([3, 4, 5] : List Nat).length none) order =
          rs.map some :=
  map_parallel_ordered (fun n : Nat => Except.ok (n * 2)) [3, 4, 5] 2
    (by decide) (by decide) (by decide)

/-- C2: a raised operation is captured as a failed TaskResult carrying the
error at the raising item's own index, nothing propagates out of
map_parallel, and when every operation raises, every one of the N results
is failed while map_parallel still returns normally. -/
theorem map_parallel_failure_isolation {α β : Type}
    (op : α → Except String β) (inputs : List α) :
    ∃ rs, map_parallel op inputs none 1000 = AsyncOutcome.ok rs ∧
      rs.length = inputs.length ∧
      (∀ (j : Nat) (x : α) (e : String), inputs[j]? = some x →
        op x = Except.error e →
        rs[j]? = some { task_id := mapTaskId j, success := false,
                        data := none, error := some e }) ∧
      ((∀ x ∈ inputs, ∃ e, op x = Except.error e) →
        ∀ r ∈ rs, r.success = false) := by
  refine ⟨mapParallelCore op inputs,
    map_parallel_ok op inputs none 1000 (by decide),
    mapParallelCore_length op inputs, ?_, ?_⟩
  · intro j x e hx he
    rw [mapParallelCore_getElem?, hx]
    simp [taskOutput_error op j x e he]
  · intro hfail r hr
    exact mapParallelFrom_all_fail op inputs hfail 0 r hr

/-- C2 witness: an always-raising operation over [7, 8]. -/
theorem map_parallel_failure_isolation_witness :
    ∃ rs, map_parallel (fun _ : Nat => (Except.error "boom" : Except String Nat))
        [7, 8] none 1000 = AsyncOutcome.ok rs ∧
      rs.length = ([7, 8] : List Nat).length ∧
      (∀ (j : Nat) (x : Nat) (e : String),
        (([7, 8] : List Nat))[j]? = some x →
        (fun _ : Nat => (Except.error "boom" : Except String Nat)) x =
          Except.error e →
        rs[j]? = some { task_id := mapTaskId j, success := false,
                        data := none, error := some e }) ∧
      ((∀ x ∈ ([7, 8] : List Nat), ∃ e,
          (fun _ : Nat => (Except.error "boom" : Except String Nat)) x =
            Except.error e) →
        ∀ r ∈ rs, r.success = false) :=
  map_parallel_failure_isolation
    (fun _ : Nat => (Except.error "boom" : Except String Nat)) [7, 8]

/-- C9: the TaskResult at index j of a map_parallel batch carries the
position-derived identifier map-j, whatever the operation does there. -/
theorem map_parallel_task_ids {α β : Type} (op : α → Except String β)
    (inputs : List α) :
    ∃ rs, map_parallel op inputs none 1000 = AsyncOutcome.ok rs ∧
      rs.length = inputs.length ∧
      ∀ j : Nat, j < inputs.length →
        (rs[j]?).map TaskResult.task_id = some (mapTaskId j) := by
  refine ⟨mapParallelCore op inputs,
    map_parallel_ok op inputs none 1000 (by decide),
    mapParallelCore_length op inputs, ?_⟩
  intro j hj
  have hx : inputs[j]? = some inputs[j] := List.getElem?_eq_getElem hj
  rw [mapParallelCore_getElem?, hx]
  simp [taskOutput_task_id]

/-- C9 witness: a mixed success/failure batch over [1, 2]. -/
theorem map_parallel_task_ids_witness :
    ∃ rs, map_parallel
        (fun n : Nat => if n = 1 then Except.ok n else Except.error "x")
        [1, 2] none 1000 = AsyncOutcome.ok rs ∧
      rs.length = ([1, 2] : List Nat).length ∧
      ∀ j : Nat, j < ([1, 2] : List Nat).length →
        (rs[j]?).map TaskResult.task_id = some (mapTaskId j) :=
  map_parallel_task_ids
    (fun n : Nat => if n = 1 then Except.ok n else Except.error "x") [1, 2]

/-- C8 counterexample: calling map_parallel with max_concurrent = 0 is not
an error — Python's falsy `or` replaces 0 by the configured default, the
semaphore is created with 1000 permits, and results are produced
normally. -/
theorem map_parallel_zero_mc_counterexample :
    map_parallel (fun n : Nat => Except.ok (n + 1)) [5] (some 0) 1000 =
      AsyncOutcome.ok
        [{ task_id := "map-0", success := true, data := some 6,
           error := none }] := by
  decide

/-- C8 amended: a negative max_concurrent raises (the ValueError of the
semaphore constructor propagates from map_parallel's entry point), while
max_concurrent = 0 is falsy and behaves exactly like the omitted default
rather than erroring. -/
theorem map_parallel_mc_amended {α β : Type} (op : α → Except String β)
    (inputs : List α) (mc : Int) (hneg : mc < 0) :
    map_parallel op inputs (some mc) 1000 =
      AsyncOutcome.raised "Semaphore initial value must be >= 0" ∧
    map_parallel op inputs (some 0) 1000 =
      map_parallel op inputs none 1000 := by
  constructor
  · unfold map_parallel
    rw [effConcurrent_of_ne_zero 1000 (by omega), if_pos hneg]
  · rw [map_parallel_ok op inputs (some 0) 1000 (by decide),
      map_parallel_ok op inputs none 1000 (by decide)]

/-- C8 witness: max_concurrent = -1 raises. -/
theorem map_parallel_mc_amended_witness :
    map_parallel (fun n : Nat => Except.ok (n + 1)) [5] (some (-1)) 1000 =
      AsyncOutcome.raised "Semaphore initial value must be >= 0" ∧
    map_parallel (fun n : Nat => Except.ok (n + 1)) [5] (some 0) 1000 =
      map_parallel (fun n : Nat => Except.ok (n + 1)) [5] none 1000 :=
  map_parallel_mc_amended (fun n : Nat => Except.ok (n + 1)) [5] (-1)
    (by decide)

/-! The semaphore-bounded fan-out. -/

/-- Invariant of the semaphore system: free permits plus in-flight tasks
always equal the cap. -/
theorem semReach_invariant (cap n : Nat) (s : SemState)
    (h : SemReach (initSem cap n) s) :
    s.sem + s.running.length = cap := by
  induction h with
  | refl => simp [initSem]
  | @step s' t hr hmem ih =>
    unfold semSteps at hmem
    rcases List.mem_append.1 hmem with hA | hB
    · by_cases h0 : s'.sem = 0
      · rw [if_pos h0] at hA
        cases hA
      · rw [if_neg h0] at hA
        rcases List.mem_map.1 hA with ⟨i, _, rfl⟩
        show s'.sem - 1 + (i :: s'.running).length = cap
        have hpos := Nat.pos_of_ne_zero h0
        simp only [List.length_cons]
        omega
    · rcases List.mem_map.1 hB with ⟨i, hi, rfl⟩
      show s'.sem + 1 + (s'.running.erase i).length = cap
      have h1 := List.length_erase_of_mem hi
      have h2 : 0 < s'.running.length :=
        List.length_pos.2 (List.ne_nil_of_mem hi)
      omega

/-- C3: in every reachable state of the semaphore-bounded mapper with
limit max_concurrent at least 1, the number of operations concurrently in
flight (the instrumented counter, incremented on start and decremented on
finish) never exceeds max_concurrent. -/
theorem semaphore_concurrency_cap (cap n : Nat) (hcap : 1 ≤ cap)
    (s : SemState) (h : SemReach (initSem cap n) s) :
    s.running.length ≤ cap := by
  have hinv := semReach_invariant cap n s h
  omega

/-- C3 witness: cap 2, three tasks, after task 0 has started. -/
theorem semaphore_concurrency_cap_witness :
    (SemState.mk [1, 2] [0] [] 1).running.length ≤ 2 :=
  semaphore_concurrency_cap 2 3 (by decide) (SemState.mk [1, 2] [0] [] 1)
    (SemReach.step SemReach.refl (by decide))

/-- With zero permits the semaphore system has no transition at all. -/
theorem semSteps_initSem_zero (n : Nat) : semSteps (initSem 0 n) = [] := by
  unfold semSteps initSem
  simp

/-- C7 counterexample: with zero pool instances and one pending target,
scrape_parallel's semaphore has zero permits: no transition exists from
the initial state, the target stays pending and nothing ever finishes —
no explicit "no capacity" error is raised from the entry point; the
mapper blocks forever instead. -/
theorem scrape_parallel_zero_capacity_counterexample :
    semSteps (scrapeParallelInit 0 1) = [] ∧
    (scrapeParallelInit 0 1).pending = [0] ∧
    (scrapeParallelInit 0 1).running = [] ∧
    (scrapeParallelInit 0 1).finished = [] := by
  decide

/-- C7 amended: if the pool has zero capacity, scrape_parallel over a
non-empty target list blocks forever rather than failing fast: every
reachable state of the mapper is the initial one — no scrape ever starts,
none completes, and no error is raised. -/
theorem scrape_parallel_zero_capacity_blocks (n : Nat) (s : SemState)
    (h : SemReach (scrapeParallelInit 0 n) s) :
    s = scrapeParallelInit 0 n := by
  induction h with
  | refl => rfl
  | @step s' t hr hmem ih =>
    rw [ih] at hmem
    unfold scrapeParallelInit at hmem
    rw [semSteps_initSem_zero] at hmem
    cases hmem

/-- C7 witness: two targets, zero instances. -/
theorem scrape_parallel_zero_capacity_blocks_witness :
    scrapeParallelInit 0 2 = scrapeParallelInit 0 2 :=
  scrape_parallel_zero_capacity_blocks 2 (scrapeParallelInit 0 2)
    SemReach.refl

/-! The instance pool. -/

/-- Acquire and release both permute the multiset of instance ids split
between available and borrowed: no instance is ever created or
destroyed. -/
theorem poolReach_perm (ids : List String) (s : PoolState)
    (h : PoolReach (initPool ids) s) :
    (s.available ++ s.borrowed).Perm ids := by
  induction h with
  | refl => simp [initPool]
  | @step s' t hr hstep ih =>
    cases hstep with
    | acquire x rest borrowed =>
      exact List.perm_middle.trans ih
    | release x available borrowed hmem =>
      show ((available ++ [x]) ++ borrowed.erase x).Perm ids
      have h1 : (available ++ [x]) ++ borrowed.erase x =
          available ++ (x :: borrowed.erase x) := by simp
      rw [h1]
      exact (List.Perm.append_left available
        (List.perm_cons_erase hmem).symm).trans ih

/-- C4: in every pool state reachable by acquire/release sequences from
startup, the available and borrowed instances together are exactly the
instances created at pool creation (none created or destroyed),
len(available) + len(borrowed) equals the fixed total, and no instance is
both free and borrowed. -/
theorem pool_state_invariant (ids : List String) (hnd : ids.Nodup)
    (s : PoolState) (h : PoolReach (initPool ids) s) :
    (s.available ++ s.borrowed).Perm ids ∧
    s.available.length + s.borrowed.length = ids.length ∧
    ∀ x : String, ¬ (x ∈ s.available ∧ x ∈ s.borrowed) := by
  have hp := poolReach_perm ids s h
  refine ⟨hp, ?_, ?_⟩
  · have hlen := hp.length_eq
    simpa using hlen
  · have hnd2 : (s.available ++ s.borrowed).Nodup := hp.nodup_iff.2 hnd
    rintro x ⟨hx1, hx2⟩
    exact List.disjoint_of_nodup_append hnd2 hx1 hx2

/-- C4 witness: a two-instance pool after acquiring the first instance. -/
theorem pool_state_invariant_witness :
    ((PoolState.mk ["b"] ["a"]).available ++
      (PoolState.mk ["b"] ["a"]).borrowed).Perm ["a", "b"] ∧
    (PoolState.mk ["b"] ["a"]).available.length +
      (PoolState.mk ["b"] ["a"]).borrowed.length =
      (["a", "b"] : List String).length ∧
    ∀ x : String, ¬ (x ∈ (PoolState.mk ["b"] ["a"]).available ∧
      x ∈ (PoolState.mk ["b"] ["a"]).borrowed) :=
  pool_state_invariant ["a", "b"] (by decide) (PoolState.mk ["b"] ["a"])
    (PoolReach.step PoolReach.refl (PoolStep.acquire "a" ["b"] []))

/-- One scrape from a fully-available pool takes the front instance and —
success or exception — puts it back at the end of the queue. -/
theorem scrape_rotates (hash : String → String)
    (op : String → String → Except String (List (String × Option String)))
    (x : String) (rest : List String) (m : ScrapeMetrics) (url : String) :
    ∃ m2 r, scrape hash op ⟨x :: rest, []⟩ m url =
      some (⟨rest ++ [x], []⟩, m2, r) ∧
      ∀ e, op x url = Except.error e → r.success = false := by
  cases hop : op x url with
  | ok data =>
    have hs : scrape hash op ⟨x :: rest, []⟩ m url =
        some (⟨rest ++ [x], []⟩,
          { m with total_scrapes := m.total_scrapes + 1,
                   successful_scrapes := m.successful_scrapes + 1,
                   items_extracted := m.items_extracted + data.length },
          { target_id := hash url, url := url, success := true,
            data := data, items_extracted := data.length }) := by
      simp [scrape, hop, List.erase_cons_head]
    refine ⟨_, _, hs, ?_⟩
    intro e he
    cases he
  | error e =>
    have hs : scrape hash op ⟨x :: rest, []⟩ m url =
        some (⟨rest ++ [x], []⟩,
          { m with total_scrapes := m.total_scrapes + 1,
                   failed_scrapes := m.failed_scrapes + 1 },
          { target_id := hash url, url := url, success := false,
            error := some e }) := by
      simp [scrape, hop, List.erase_cons_head]
    refine ⟨_, _, hs, ?_⟩
    intro e2 _
    rfl

/-- Running any number of all-failing scrapes sequentially keeps the pool
a permutation of its initial contents with nothing borrowed, and every
result is failed. -/
theorem runScrapes_all_fail (hash : String → String)
    (op : String → String → Except String (List (String × Option String)))
    (ids : List String) (hne : ids ≠ [])
    (hfail : ∀ inst url, ∃ e, op inst url = Except.error e)
    (urls : List String) :
    ∀ (a : List String) (m : ScrapeMetrics), a.Perm ids →
      ∃ st mt rs, runScrapes hash op ⟨a, []⟩ m urls = some (st, mt, rs) ∧
        st.available.Perm ids ∧ st.borrowed = [] ∧
        rs.length = urls.length ∧ ∀ r ∈ rs, r.success = false := by
  induction urls with
  | nil =>
    intro a m hperm
    exact ⟨⟨a, []⟩, m, [], rfl, hperm, rfl, rfl, by simp⟩
  | cons url urls ih =>
    intro a m hperm
    obtain ⟨x, rest, rfl⟩ : ∃ x rest, a = x :: rest := by
      cases a with
      | nil => exact absurd hperm.symm.eq_nil hne
      | cons x rest => exact ⟨x, rest, rfl⟩
    obtain ⟨m2, r, hs, hrfail⟩ := scrape_rotates hash op x rest m url
    have hperm2 : (rest ++ [x]).Perm ids :=
      (List.perm_append_singleton x rest).trans hperm
    obtain ⟨st, mt, rs, hrun, hav, hbor, hlen, hall⟩ :=
      ih (rest ++ [x]) m2 hperm2
    refine ⟨st, mt, r :: rs, ?_, hav, hbor, by simp [hlen], ?_⟩
    · simp [runScrapes, hs, hrun]
    · intro r2 hr2
      rcases List.mem_cons.1 hr2 with h | h
      · obtain ⟨e, he⟩ := hfail x url
        rw [h]
        exact hrfail e he
      · exact hall r2 h

/-- C5: the borrowed instance is returned on every exit path of scrape,
including when the operation raises: after any sequence of scrape calls in
which every operation throws, all instances of the pool are back in the
available set, nothing stays borrowed, and a fresh acquire finds an
instance without blocking. -/
theorem scrape_no_instance_leak (hash : String → String)
    (op : String → String → Except String (List (String × Option String)))
    (ids : List String) (urls : List String) (hne : ids ≠ [])
    (hfail : ∀ inst url, ∃ e, op inst url = Except.error e) :
    ∃ st mt rs, runScrapes hash op (initPool ids) {} urls =
      some (st, mt, rs) ∧
      st.available.Perm ids ∧ st.borrowed = [] ∧ st.available ≠ [] ∧
      rs.length = urls.length ∧ ∀ r ∈ rs, r.success = false := by
  obtain ⟨st, mt, rs, hrun, hav, hbor, hlen, hall⟩ :=
    runScrapes_all_fail hash op ids hne hfail urls ids {} (List.Perm.refl ids)
  refine ⟨st, mt, rs, hrun, hav, hbor, ?_, hlen, hall⟩
  intro hnil
  rw [hnil] at hav
  exact hne hav.symm.eq_nil

/-- C5 witness: a two-instance pool, two always-throwing scrapes. -/
theorem scrape_no_instance_leak_witness :
    ∃ st mt rs, runScrapes (fun _ => "h")
        (fun _ _ => Except.error "boom") (initPool ["a", "b"]) {}
        ["u1", "u2"] = some (st, mt, rs) ∧
      st.available.Perm ["a", "b"] ∧ st.borrowed = [] ∧
      st.available ≠ [] ∧
      rs.length = (["u1", "u2"] : List String).length ∧
      ∀ r ∈ rs, r.success = false :=
  scrape_no_instance_leak (fun _ => "h") (fun _ _ => Except.error "boom")
    ["a", "b"] ["u1", "u2"] (by decide) (fun _ _ => ⟨"boom", rfl⟩)

/-! Pool initialization. -/

/-- Characterization of start from any instance index: the first uncaught
setup exception aborts the whole startup; with no uncaught exception every
instance — including those that fell back to mock mode on ImportError —
is put into the pool. -/
theorem startFrom_eq (l : List InitOutcome) : ∀ i : Nat,
    startFrom i l =
      match l.find? isFatal with
      | some (InitOutcome.failure msg) => Except.error msg
      | _ => Except.ok (pooledIds i l.length) := by
  induction l with
  | nil => intro i; rfl
  | cons o rest ih =>
    intro i
    cases o with
    | success =>
      have hfind : (InitOutcome.success :: rest).find? isFatal =
          rest.find? isFatal := List.find?_cons_of_neg rest (by decide)
      rw [hfind]
      show (match startFrom (i + 1) rest with
        | Except.error e => Except.error e
        | Except.ok ids => Except.ok (instanceId i :: ids)) = _
      rw [ih (i + 1)]
      cases hf : rest.find? isFatal with
      | none => rfl
      | some o2 => cases o2 <;> rfl
    | importError =>
      have hfind : (InitOutcome.importError :: rest).find? isFatal =
          rest.find? isFatal := List.find?_cons_of_neg rest (by decide)
      rw [hfind]
      show (match startFrom (i + 1) rest with
        | Except.error e => Except.error e
        | Except.ok ids => Except.ok (instanceId i :: ids)) = _
      rw [ih (i + 1)]
      cases hf : rest.find? isFatal with
      | none => rfl
      | some o2 => cases o2 <;> rfl
    | failure msg =>
      have hfind : (InitOutcome.failure msg :: rest).find? isFatal =
          some (InitOutcome.failure msg) :=
        List.find?_cons_of_pos rest rfl
      rw [hfind]
      rfl

/-- C6 counterexample: one fatal setup failure among two instances makes
start itself raise (gather without return_exceptions propagates it), so
the failure of one instance does fail initialization; and an instance
whose playwright setup failed with ImportError is not excluded — it is
put into the pool in mock mode. -/
theorem orchestrator_start_counterexample :
    orchestrator_start
        [InitOutcome.success, InitOutcome.failure "browser launch failed"] =
      Except.error "browser launch failed" ∧
    orchestrator_start [InitOutcome.importError] =
      Except.ok ["scraper-0000"] := by
  constructor <;> rfl

/-- C6 amended: start tolerates only the missing-playwright ImportError
(the instance still joins the pool, in mock mode); any other per-instance
setup failure propagates out of start and aborts pool initialization even
when other instances succeed, and start returns no capacity count; with no
fatal failure, all requested instances are pooled. -/
theorem orchestrator_start_amended (outcomes : List InitOutcome) :
    orchestrator_start outcomes =
      match outcomes.find? isFatal with
      | some (InitOutcome.failure msg) => Except.error msg
      | _ => Except.ok (pooledIds 0 outcomes.length) :=
  startFrom_eq outcomes 0

/-! Metrics. -/

/-- A single _execute_task call preserves the processed-equals-succeeded-
plus-failed balance. -/
theorem runExecuteTasks_metrics {α β : Type} (op : α → Except String β)
    (tasks : List (String × α)) :
    ∀ m : Metrics,
      m.tasks_processed = m.tasks_succeeded + m.tasks_failed →
      ((runExecuteTasks op m tasks).1).tasks_processed =
        ((runExecuteTasks op m tasks).1).tasks_succeeded +
          ((runExecuteTasks op m tasks).1).tasks_failed := by
  induction tasks with
  | nil => intro m hm; exact hm
  | cons t rest ih =>
    obtain ⟨tid, x⟩ := t
    intro m hm
    simp only [runExecuteTasks]
    apply ih
    unfold execute_task
    cases op x <;> simp <;> omega

/-- Evaluation of scrape on a pool whose queue is non-empty. -/
theorem scrape_cons (hash : String → String)
    (op : String → String → Except String (List (String × Option String)))
    (x : String) (rest b : List String) (m : ScrapeMetrics)
    (url : String) :
    scrape hash op ⟨x :: rest, b⟩ m url =
      match op x url with
      | Except.ok data =>
          some (⟨rest ++ [x], (x :: b).erase x⟩,
            { m with total_scrapes := m.total_scrapes + 1,
                     successful_scrapes := m.successful_scrapes + 1,
                     items_extracted := m.items_extracted + data.length },
            { target_id := hash url, url := url, success := true,
              data := data, items_extracted := data.length })
      | Except.error e =>
          some (⟨rest ++ [x], (x :: b).erase x⟩,
            { m with total_scrapes := m.total_scrapes + 1,
                     failed_scrapes := m.failed_scrapes + 1 },
            { target_id := hash url, url := url, success := false,
              error := some e }) := by
  cases hop : op x url <;> simp [scrape, hop]

/-- A single scrape call preserves the total-equals-successful-plus-failed
balance. -/
theorem scrape_metrics (hash : String → String)
    (op : String → String → Except String (List (String × Option String)))
    (st : PoolState) (m : ScrapeMetrics) (url : String)
    (hm : m.total_scrapes = m.successful_scrapes + m.failed_scrapes) :
    ∀ p, scrape hash op st m url = some p →
      p.2.1.total_scrapes =
        p.2.1.successful_scrapes + p.2.1.failed_scrapes := by
  intro p hp
  obtain ⟨av, b⟩ := st
  cases av with
  | nil =>
    have hq : (none : Option (PoolState × ScrapeMetrics × ScrapeResult)) =
        some p := hp
    cases hq
  | cons x rest =>
    rw [scrape_cons] at hp
    cases hop : op x url with
    | ok data =>
      rw [hop] at hp
      have hq : some ((⟨rest ++ [x], (x :: b).erase x⟩ : PoolState),
          ({ m with total_scrapes := m.total_scrapes + 1,
                    successful_scrapes := m.successful_scrapes + 1,
                    items_extracted := m.items_extracted + data.length } :
            ScrapeMetrics),
          ({ target_id := hash url, url := url, success := true,
             data := data, items_extracted := data.length } :
            ScrapeResult)) = some p := hp
      cases hq
      simp
      omega
    | error e =>
      rw [hop] at hp
      have hq : some ((⟨rest ++ [x], (x :: b).erase x⟩ : PoolState),
          ({ m with total_scrapes := m.total_scrapes + 1,
                    failed_scrapes := m.failed_scrapes + 1 } :
            ScrapeMetrics),
          ({ target_id := hash url, url := url, success := false,
             error := some e } : ScrapeResult)) = some p := hp
      cases hq
      simp
      omega

/-- Any sequence of scrape calls preserves the scrape-metrics balance. -/
theorem runScrapes_metrics (hash : String → String)
    (op : String → String → Except String (List (String × Option String)))
    (urls : List String) :
    ∀ (st : PoolState) (m : ScrapeMetrics),
      m.total_scrapes = m.successful_scrapes + m.failed_scrapes →
      ∀ q, runScrapes hash op st m urls = some q →
        q.2.1.total_scrapes =
          q.2.1.successful_scrapes + q.2.1.failed_scrapes := by
  induction urls with
  | nil =>
    intro st m hm q hq
    have hq2 : some ((st, m, ([] : List ScrapeResult))) = some q := hq
    cases hq2
    exact hm
  | cons url urls ih =>
    intro st m hm q hq
    simp only [runScrapes] at hq
    cases hs : scrape hash op st m url with
    | none =>
      rw [hs] at hq
      have hq2 : (none : Option
          (PoolState × ScrapeMetrics × List ScrapeResult)) = some q := hq
      cases hq2
    | some p =>
      rw [hs] at hq
      obtain ⟨st2, m2, r⟩ := p
      have h2 : m2.total_scrapes =
          m2.successful_scrapes + m2.failed_scrapes :=
        scrape_metrics hash op st m url hm (st2, m2, r) hs
      have hq2 : (runScrapes hash op st2 m2 urls).map
          (fun q2 => (q2.1, q2.2.1, r :: q2.2.2)) = some q := hq
      cases hr : runScrapes hash op st2 m2 urls with
      | none =>
        rw [hr] at hq2
        have hq3 : (none : Option
            (PoolState × ScrapeMetrics × List ScrapeResult)) = some q := hq2
        cases hq3
      | some q2 =>
        rw [hr] at hq2
        have hq3 : some (q2.1, q2.2.1, r :: q2.2.2) = some q := hq2
        cases hq3
        exact ih st2 m2 h2 q2 hr

/-- C10: every completed task execution increments the processed count and
exactly one of succeeded/failed, so tasks_processed =
tasks_succeeded + tasks_failed after every sequence of _execute_task calls
from the zero-initialized ManusCore metrics; likewise total_scrapes =
successful_scrapes + failed_scrapes after every sequence of scrape calls
from the zero-initialized orchestrator metrics. -/
theorem metrics_consistency {α β : Type} (op : α → Except String β)
    (tasks : List (String × α)) (hash : String → String)
    (sop : String → String → Except String (List (String × Option String)))
    (ids : List String) (urls : List String) :
    (((runExecuteTasks op {} tasks).1).tasks_processed =
      ((runExecuteTasks op {} tasks).1).tasks_succeeded +
        ((runExecuteTasks op {} tasks).1).tasks_failed) ∧
    ∀ q, runScrapes hash sop (initPool ids) {} urls = some q →
      q.2.1.total_scrapes =
        q.2.1.successful_scrapes + q.2.1.failed_scrapes :=
  ⟨runExecuteTasks_metrics op tasks {} rfl,
    fun q hq => runScrapes_metrics hash sop urls (initPool ids) {} rfl q hq⟩

/-- C10 witness: one succeeding task, one failing scrape. -/
theorem metrics_consistency_witness :
    (((runExecuteTasks (fun n : Nat => Except.ok n) {}
        [("t1", 3)]).1).tasks_processed =
      ((runExecuteTasks (fun n : Nat => Except.ok n) {}
        [("t1", 3)]).1).tasks_succeeded +
        ((runExecuteTasks (fun n : Nat => Except.ok n) {}
          [("t1", 3)]).1).tasks_failed) ∧
    ∀ q, runScrapes (fun _ => "h") (fun _ _ => Except.error "x")
        (initPool ["a"]) {} ["u"] = some q →
      q.2.1.total_scrapes =
        q.2.1.successful_scrapes + q.2.1.failed_scrapes :=
  metrics_consistency (fun n : Nat => Except.ok n) [("t1", 3)]
    (fun _ => "h") (fun _ _ => Except.error "x") ["a"] ["u"]

end LeadSniper
